import Mathlib

/-!
Verification development for the orchestrator repository.

Shallow embedding of the core components under verification:
the risk classifier and approval manager (src/api/approval.py,
src/api/approval_manager.py), the task lifecycle manager and its
event stream (src/web/task_manager.py, src/web/server.py), and the
routing supervisor safety checks (src/orchestrator/supervisor.py).

Python dictionaries are modelled as association lists with the usual
update-in-place-or-append assignment semantics; timestamps are natural
numbers; the asyncio execution model makes every synchronous segment
between awaits atomic, so each such segment is one state-transition
function here.
-/

namespace Orchestrator

/-! Dictionary operations, modelling Python dict get / assignment / pop. -/

def dictGet {α : Type} : List (Nat × α) → Nat → Option α
  | [], _ => none
  | p :: l, k => if p.1 = k then some p.2 else dictGet l k

def dictSet {α : Type} : List (Nat × α) → Nat → α → List (Nat × α)
  | [], k, v => [(k, v)]
  | p :: l, k, v => if p.1 = k then (k, v) :: l else p :: dictSet l k v

def dictPop {α : Type} (l : List (Nat × α)) (k : Nat) : List (Nat × α) :=
  l.filter (fun p => decide (p.1 ≠ k))

def dictGetD {α : Type} (l : List (Nat × α)) (k : Nat) (d : α) : α :=
  (dictGet l k).getD d

def dictValues {α : Type} (l : List (Nat × α)) : List α :=
  l.map (fun p => p.2)

/-! Risk classifier data model, from src/src/api/approval.py. -/

inductive RiskLevel
  | low
  | medium
  | high
  | critical
deriving DecidableEq, Repr, BEq

inductive OperationType
  | code_execution
  | file_write
  | file_delete
  | git_commit
  | git_push
  | git_force_push
  | git_branch_delete
  | api_call
  | network_request
  | agent_call
  | pr_create
deriving DecidableEq, Repr, BEq

inductive ApprovalStatus
  | pending
  | approved
  | rejected
  | timeout
  | expired
deriving DecidableEq, Repr, BEq

structure ApprovalRequest where
  request_id : Nat
  created_at : Nat
  operation_type : OperationType
  risk_level : RiskLevel
  description : String
  details : List (String × String)
  task_id : Option Nat
  agent_name : Option String
  timeout_seconds : Nat
  status : ApprovalStatus
  decided_at : Option Nat
  decision_note : Option String
deriving DecidableEq, Repr

structure ApprovalResponse where
  request_id : Nat
  approved : Bool
  note : Option String
  decided_at : Nat
deriving DecidableEq, Repr

/-- RiskClassifier.RISK_LEVELS from src/src/api/approval.py. -/
def RiskClassifier.RISK_LEVELS : List (OperationType × RiskLevel) :=
  [ (.agent_call, .low),
    (.file_write, .medium),
    (.git_commit, .medium),
    (.pr_create, .medium),
    (.api_call, .medium),
    (.code_execution, .high),
    (.file_delete, .high),
    (.git_push, .high),
    (.network_request, .high),
    (.git_force_push, .critical),
    (.git_branch_delete, .critical) ]

/-- RiskClassifier.classify: dict lookup with default medium. -/
def RiskClassifier.classify (operation_type : OperationType) : RiskLevel :=
  match RiskClassifier.RISK_LEVELS.find? (fun p => p.1 == operation_type) with
  | some p => p.2
  | none => .medium

/-- RiskClassifier.requires_approval: risk_level in [MEDIUM, HIGH, CRITICAL]. -/
def RiskClassifier.requires_approval (risk_level : RiskLevel) : Bool :=
  [RiskLevel.medium, RiskLevel.high, RiskLevel.critical].contains risk_level

/-- RiskClassifier.create_request: build a request with classified risk,
status PENDING and no decision yet. The uuid4 request id and the creation
timestamp are supplied as parameters. -/
def RiskClassifier.create_request (operation_type : OperationType)
    (description : String) (details : List (String × String))
    (task_id : Option Nat) (agent_name : Option String)
    (rid now : Nat) : ApprovalRequest :=
  { request_id := rid
    created_at := now
    operation_type := operation_type
    risk_level := RiskClassifier.classify operation_type
    description := description
    details := details
    task_id := task_id
    agent_name := agent_name
    timeout_seconds := 300
    status := .pending
    decided_at := none
    decision_note := none }

/-! Approval manager state and transitions, from
src/src/api/approval_manager.py. The observer callbacks are modelled as
ghost logs (created_notified, decided_notified) recording every request
the callback would have been invoked on. -/

structure ApprovalManagerState where
  default_timeout : Nat
  pending_requests : List (Nat × ApprovalRequest)
  history : List ApprovalRequest
  events : List (Nat × Bool)
  created_notified : List ApprovalRequest
  decided_notified : List ApprovalRequest
deriving DecidableEq, Repr

/-- ApprovalManager.__init__. -/
def ApprovalManager.initial (default_timeout : Nat) : ApprovalManagerState :=
  { default_timeout := default_timeout
    pending_requests := []
    history := []
    events := []
    created_notified := []
    decided_notified := [] }

/-- Python `timeout or self.default_timeout`: 0 and None are falsy. -/
def effectiveTimeout (st : ApprovalManagerState) (timeout : Option Nat) : Nat :=
  match timeout with
  | none => st.default_timeout
  | some t => if t = 0 then st.default_timeout else t

/-- The request value held by request_approval after creation and the
timeout_seconds assignment. -/
def registeredRequest (st : ApprovalManagerState)
    (operation_type : OperationType) (description : String)
    (details : List (String × String)) (task_id : Option Nat)
    (agent_name : Option String) (timeout : Option Nat)
    (rid now : Nat) : ApprovalRequest :=
  { RiskClassifier.create_request operation_type description details
      task_id agent_name rid now with
    timeout_seconds := effectiveTimeout st timeout }

/-- The synchronous prefix of ApprovalManager.request_approval, up to
the first await on the event: create the request, auto-approve low risk
without registering, otherwise register it in pending_requests, create
its event and notify the created observer. Returns the immediate
response for the auto-approved case, none when the caller is left
suspended. -/
def requestApprovalStart (st : ApprovalManagerState)
    (operation_type : OperationType) (description : String)
    (details : List (String × String)) (task_id : Option Nat)
    (agent_name : Option String) (timeout : Option Nat)
    (rid now : Nat) : ApprovalManagerState × Option ApprovalResponse :=
  let request := registeredRequest st operation_type description details
      task_id agent_name timeout rid now
  if !(RiskClassifier.requires_approval request.risk_level) then
    (st, some { request_id := rid, approved := true,
                note := some "Auto-approved (low risk)", decided_at := now })
  else
    ({ st with
        pending_requests := dictSet st.pending_requests rid request
        events := dictSet st.events rid false
        created_notified := st.created_notified ++ [request] },
     none)

/-- ApprovalManager.approve: look up in pending_requests only, return
false when absent; otherwise mutate the request in place (the dict entry
aliases the local variable), set its event when present, notify the
decided observer and return true. The request is NOT moved to history
here; the suspended waiter does that when it resumes. -/
def ApprovalManager.approve (st : ApprovalManagerState) (request_id : Nat)
    (note : Option String) (now : Nat) : ApprovalManagerState × Bool :=
  match dictGet st.pending_requests request_id with
  | none => (st, false)
  | some request =>
    let request := { request with
        status := ApprovalStatus.approved
        decided_at := some now
        decision_note := note }
    ({ st with
        pending_requests := dictSet st.pending_requests request_id request
        events := if (dictGet st.events request_id).isSome
          then dictSet st.events request_id true else st.events
        decided_notified := st.decided_notified ++ [request] },
     true)

/-- ApprovalManager.reject: identical to approve with status REJECTED. -/
def ApprovalManager.reject (st : ApprovalManagerState) (request_id : Nat)
    (note : Option String) (now : Nat) : ApprovalManagerState × Bool :=
  match dictGet st.pending_requests request_id with
  | none => (st, false)
  | some request =>
    let request := { request with
        status := ApprovalStatus.rejected
        decided_at := some now
        decision_note := note }
    ({ st with
        pending_requests := dictSet st.pending_requests request_id request
        events := if (dictGet st.events request_id).isSome
          then dictSet st.events request_id true else st.events
        decided_notified := st.decided_notified ++ [request] },
     true)

/-- The resumption segment of ApprovalManager.request_approval after its
event is set: pop the request from pending_requests, append it to
history, drop the event (the finally block) and return the response. -/
def requestApprovalResume (st : ApprovalManagerState) (rid now : Nat) :
    ApprovalManagerState × Option ApprovalResponse :=
  match dictGet st.pending_requests rid with
  | none => (st, none)
  | some request =>
    ({ st with
        pending_requests := dictPop st.pending_requests rid
        history := st.history ++ [request]
        events := dictPop st.events rid },
     some { request_id := rid
            approved := request.status == ApprovalStatus.approved
            note := request.decision_note
            decided_at := request.decided_at.getD now })

inductive ApprovalWaitOutcome
  | decision (resp : ApprovalResponse)
  | approvalTimedOut
deriving DecidableEq, Repr

/-- The asyncio.TimeoutError branch of ApprovalManager.request_approval:
mark the pending request TIMEOUT with a decision timestamp, pop it from
pending_requests, append it to history, notify the decided observer,
drop the event (the finally block) and raise ApprovalTimeout instead of
returning a response. -/
def requestApprovalTimeout (st : ApprovalManagerState) (rid now : Nat) :
    ApprovalManagerState × ApprovalWaitOutcome :=
  match dictGet st.pending_requests rid with
  | none => (st, .approvalTimedOut)
  | some request =>
    let request := { request with
        status := ApprovalStatus.timeout
        decided_at := some now }
    ({ st with
        pending_requests := dictPop st.pending_requests rid
        history := st.history ++ [request]
        decided_notified := st.decided_notified ++ [request]
        events := dictPop st.events rid },
     .approvalTimedOut)

/-- What happens to the approval manager when the task awaiting a
request is cancelled: asyncio.CancelledError propagates out of the
wait_for (it is not an asyncio.TimeoutError), so only the finally block
runs, removing the event; the request stays in pending_requests. -/
def ApprovalManager.cancelWaiter (st : ApprovalManagerState) (rid : Nat) :
    ApprovalManagerState :=
  { st with events := dictPop st.events rid }

/-- ApprovalManager.get_pending_requests. -/
def ApprovalManager.get_pending_requests (st : ApprovalManagerState) :
    List ApprovalRequest :=
  dictValues st.pending_requests

/-- Python truthiness of an int limit: `if limit:` applies the slice only
for a nonzero limit, so limit = 0 and limit = None both leave the list
whole. -/
def applyLimit {α : Type} (limit : Option Nat) (l : List α) : List α :=
  match limit with
  | none => l
  | some n => if n = 0 then l else l.take n

/-- Stable descending insertion by key, modelling Python
sorted(key=..., reverse=True): among equal keys the original order is
kept. -/
def insertByKeyDesc {α : Type} (key : α → Nat) (a : α) :
    List α → List α
  | [] => [a]
  | b :: l => if key b ≤ key a then a :: b :: l else b :: insertByKeyDesc key a l

def sortByKeyDesc {α : Type} (key : α → Nat) : List α → List α
  | [] => []
  | a :: l => insertByKeyDesc key a (sortByKeyDesc key l)

/-- ApprovalManager.get_history: optional status filter, sort by
decided_at descending (None sorts as datetime.min, modelled as 0), then
apply the truthy limit. -/
def ApprovalManager.get_history (st : ApprovalManagerState)
    (limit : Option Nat) (status : Option ApprovalStatus) :
    List ApprovalRequest :=
  let h := st.history
  let h := match status with
    | some s => h.filter (fun r => r.status == s)
    | none => h
  let h := sortByKeyDesc (fun r => r.decided_at.getD 0) h
  applyLimit limit h

/-- Count of history entries with a given status, as in the by_status
loop of ApprovalManager.get_stats. -/
def countStatus (h : List ApprovalRequest) (s : ApprovalStatus) : Nat :=
  (h.filter (fun r => r.status == s)).length

/-- The approval_rate computation of ApprovalManager.get_stats:
approved / total_decided where total_decided counts APPROVED and
REJECTED history entries, 0.0 when total_decided is 0. -/
def approval_rate (h : List ApprovalRequest) : ℚ :=
  let total_decided := (h.filter (fun r =>
      [ApprovalStatus.approved, ApprovalStatus.rejected].contains r.status)).length
  if 0 < total_decided then
    (countStatus h .approved : ℚ) / (total_decided : ℚ)
  else 0

/-! Task manager data model, from src/src/web/models.py,
src/src/state/schemas.py and src/src/web/task_manager.py. Event
payloads are opaque strings. -/

inductive TaskStatus
  | pending
  | running
  | waiting_approval
  | completed
  | failed
  | cancelled
deriving DecidableEq, Repr, BEq

inductive AgentType
  | research
  | context
  | pr
  | supervisor
deriving DecidableEq, Repr, BEq

inductive ProgressEventType
  | task_start
  | agent_start
  | agent_progress
  | agent_complete
  | approval_required
  | approval_decided
  | iteration
  | routing_decision
  | complete
  | error
  | keepalive
deriving DecidableEq, Repr, BEq

structure ProgressEvent where
  event : ProgressEventType
  data : String
  event_id : Nat
deriving DecidableEq, Repr

structure TaskInfo where
  task_id : Nat
  status : TaskStatus
  created_at : Nat
deriving DecidableEq, Repr

structure TaskManagerState where
  task_info : List (Nat × TaskInfo)
  events : List (Nat × List ProgressEvent)
  event_queues : List (Nat × List ProgressEvent)
  background_tasks : List Nat
deriving DecidableEq, Repr

def TaskManager.initial : TaskManagerState :=
  { task_info := []
    events := []
    event_queues := []
    background_tasks := [] }

/-- TaskManager._emit_event: the next event_id is the current length of
the per-task event list (a defaultdict, so a missing task reads as the
empty list), the event is appended to the store, and a copy is pushed
onto the SSE queue of the task when one exists. -/
def TaskManager.emit_event (st : TaskManagerState) (task_id : Nat)
    (event_type : ProgressEventType) (data : String) : TaskManagerState :=
  let es := dictGetD st.events task_id []
  let event : ProgressEvent :=
    { event := event_type, data := data, event_id := es.length }
  let st := { st with events := dictSet st.events task_id (es ++ [event]) }
  match dictGet st.event_queues task_id with
  | some q =>
      { st with event_queues := dictSet st.event_queues task_id (q ++ [event]) }
  | none => st

/-- TaskManager.get_events: self.events.get(task_id, []). -/
def TaskManager.get_events (st : TaskManagerState) (task_id : Nat) :
    List ProgressEvent :=
  dictGetD st.events task_id []

/-- TaskManager._update_task_info restricted to the status field: no-op
for an unknown task, otherwise set the status. -/
def TaskManager.update_task_status (st : TaskManagerState) (task_id : Nat)
    (status : TaskStatus) : TaskManagerState :=
  match dictGet st.task_info task_id with
  | none => st
  | some info =>
      let info := { info with status := status }
      { st with task_info := dictSet st.task_info task_id info }

/-- TaskManager.start_task: record the task as PENDING, create its SSE
queue, emit the TASK_START event and register the background handle. -/
def TaskManager.start_task (st : TaskManagerState) (task_id now : Nat) :
    TaskManagerState :=
  let newInfo : TaskInfo :=
    { task_id := task_id, status := TaskStatus.pending, created_at := now }
  let st := { st with task_info := dictSet st.task_info task_id newInfo }
  let st := { st with event_queues := dictSet st.event_queues task_id [] }
  let st := TaskManager.emit_event st task_id ProgressEventType.task_start "{}"
  { st with background_tasks := st.background_tasks ++ [task_id] }

/-- TaskManager.list_tasks: optional status filter, sort by created_at
descending, apply the truthy limit. -/
def TaskManager.list_tasks (st : TaskManagerState)
    (status : Option TaskStatus) (limit : Option Nat) : List TaskInfo :=
  let tasks := dictValues st.task_info
  let tasks := match status with
    | some s => tasks.filter (fun t => t.status == s)
    | none => tasks
  let tasks := sortByKeyDesc (fun t => t.created_at) tasks
  applyLimit limit tasks

/-- TaskManager.cancel_task: when a background handle exists, cancel it
(the CancelledError reaches the unit of work asynchronously), set the
task status to FAILED, emit an ERROR event and return true; the approval
manager is never touched. -/
def TaskManager.cancel_task (st : TaskManagerState) (task_id : Nat) :
    TaskManagerState × Bool :=
  if st.background_tasks.contains task_id then
    let st := TaskManager.update_task_status st task_id TaskStatus.failed
    let st := TaskManager.emit_event st task_id ProgressEventType.error
        "Task cancelled by user"
    (st, true)
  else
    (st, false)

/-! Event stream delivery, from stream_task_progress in
src/src/web/server.py. -/

/-- The live phase of the SSE generator: events are taken from the
per-task queue in order and forwarded verbatim; the loop stops after
forwarding a COMPLETE or ERROR event. An exhausted queue means the
generator is waiting (emitting unsequenced keepalives), so the delivered
sequenced events are those read so far. -/
def takeUntilTerminal : List ProgressEvent → List ProgressEvent
  | [] => []
  | e :: rest =>
    if e.event == ProgressEventType.complete
        || e.event == ProgressEventType.error then [e]
    else e :: takeUntilTerminal rest

/-- The sequenced events delivered to one subscriber of
stream_task_progress, connecting with the given Last-Event-ID (or -1
when the header is absent): first the replay of stored events with
event_id greater than last_seen_id, then, unless the task is already
COMPLETED or FAILED, the live phase reading the shared per-task queue,
whose current contents this takes as argument via the state. -/
def streamDelivered (st : TaskManagerState) (task_id : Nat)
    (last_seen_id : Int) : List ProgressEvent :=
  let q := dictGetD st.event_queues task_id []
  let existing := TaskManager.get_events st task_id
  let replay := existing.filter (fun e => last_seen_id < (e.event_id : Int))
  let terminal := match dictGet st.task_info task_id with
    | some info => info.status == TaskStatus.completed
        || info.status == TaskStatus.failed
    | none => false
  if terminal then replay else replay ++ takeUntilTerminal q

/-! Routing supervisor, from src/src/orchestrator/supervisor.py and the
TaskState schema in src/src/state/schemas.py (restricted to the fields
decide_next_route reads). The external LLM decide call is a collaborator
and is passed in as an oracle: ok d is a reply parsed to the next agent
(DONE or an unrecognised reply parse to none, as agent_map.get does),
error is a raised exception. -/

inductive RoutingStrategy
  | research_first
  | context_first
  | adaptive
  | parallel
deriving DecidableEq, Repr, BEq

structure RoutingDecision where
  next_agent : Option AgentType
  strategy_used : RoutingStrategy
  reasoning : String
  confidence : ℚ
  alternative_agents : List AgentType
deriving DecidableEq, Repr

structure PRResult where
  success : Bool
deriving DecidableEq, Repr

structure TaskState where
  objective : String
  status : TaskStatus
  iteration : Nat
  max_iterations : Nat
  agents_called : List AgentType
  next_agent : Option AgentType
  pr_results : Option PRResult
  errors : List String
  max_retries : Nat
deriving DecidableEq, Repr

def informational_keywords : List String :=
  [ "tell me", "what is", "how does", "explain", "who is", "why is",
    "describe", "information about", "details about", "learn about",
    "what are", "how do", "what does", "can you explain" ]

def isInfixList (sub : List Char) : List Char → Bool
  | [] => sub.isEmpty
  | c :: rest => sub.isPrefixOf (c :: rest) || isInfixList sub rest

def strContains (s sub : String) : Bool :=
  isInfixList sub.toList s.toList

/-- TaskSupervisor.decide_next_route. Returns the decision together with
a flag recording whether the external LLM decide call was made. The two
safety checks come first and return next_agent none without consulting
the heuristics or the LLM; the fast heuristics come next, also without
an LLM call; only then is the LLM consulted, with a failed call
degrading to next_agent none. The per-supervisor decision_history log is
not modelled (no claim depends on it). -/
def decide_next_route (default_strategy : RoutingStrategy)
    (state : TaskState) (llm : Except Unit (Option AgentType)) :
    RoutingDecision × Bool :=
  if state.max_iterations ≤ state.iteration then
    ({ next_agent := none
       strategy_used := default_strategy
       reasoning := "Max iterations reached"
       confidence := 1
       alternative_agents := [] }, false)
  else if state.max_retries ≤ state.errors.length then
    ({ next_agent := none
       strategy_used := default_strategy
       reasoning := "Max errors reached"
       confidence := 1
       alternative_agents := [] }, false)
  else
    let objective_lower := state.objective.toLower
    if (state.pr_results.map PRResult.success).getD false then
      ({ next_agent := none
         strategy_used := default_strategy
         reasoning := "PR completed successfully"
         confidence := 1
         alternative_agents := [] }, false)
    else if state.agents_called.contains AgentType.research
        && !(state.agents_called.contains AgentType.pr)
        && informational_keywords.any (fun kw => strContains objective_lower kw) then
      ({ next_agent := none
         strategy_used := default_strategy
         reasoning := "Informational query answered by research"
         confidence := 95 / 100
         alternative_agents := [] }, false)
    else if state.agents_called.contains AgentType.research
        && state.agents_called.contains AgentType.context
        && state.agents_called.contains AgentType.pr then
      ({ next_agent := none
         strategy_used := default_strategy
         reasoning := "All agents have been called"
         confidence := 1
         alternative_agents := [] }, false)
    else
      match llm with
      | .ok parsed =>
          ({ next_agent := parsed
             strategy_used := RoutingStrategy.adaptive
             reasoning := "LLM routing decision"
             confidence := 75 / 100
             alternative_agents := [] }, true)
      | .error _ =>
          ({ next_agent := none
             strategy_used := default_strategy
             reasoning := "Decision error"
             confidence := 0
             alternative_agents := [] }, true)

/-! Reachable approval-manager states: the interleavings of the atomic
asyncio segments defined above. Registration requires a fresh uuid; the
waiter resumes only once its event has been set; the timeout branch
fires only while the waiter is still suspended on an unset event. -/

inductive AMReachable : ApprovalManagerState → Prop
  | init (d : Nat) : AMReachable (ApprovalManager.initial d)
  | start {st : ApprovalManagerState} (h : AMReachable st)
      (operation_type : OperationType) (description : String)
      (details : List (String × String)) (task_id : Option Nat)
      (agent_name : Option String) (timeout : Option Nat) (rid now : Nat)
      (hfreshPending : dictGet st.pending_requests rid = none)
      (hfreshHistory : ∀ r ∈ st.history, r.request_id ≠ rid) :
      AMReachable (requestApprovalStart st operation_type description
        details task_id agent_name timeout rid now).1
  | approveCall {st : ApprovalManagerState} (h : AMReachable st)
      (rid : Nat) (note : Option String) (now : Nat) :
      AMReachable (ApprovalManager.approve st rid note now).1
  | rejectCall {st : ApprovalManagerState} (h : AMReachable st)
      (rid : Nat) (note : Option String) (now : Nat) :
      AMReachable (ApprovalManager.reject st rid note now).1
  | resume {st : ApprovalManagerState} (h : AMReachable st) (rid now : Nat)
      (hset : dictGet st.events rid = some true) :
      AMReachable (requestApprovalResume st rid now).1
  | timeoutFire {st : ApprovalManagerState} (h : AMReachable st)
      (rid now : Nat) (hunset : dictGet st.events rid = some false) :
      AMReachable (requestApprovalTimeout st rid now).1
  | cancelWaiterStep {st : ApprovalManagerState} (h : AMReachable st)
      (rid : Nat) :
      AMReachable (ApprovalManager.cancelWaiter st rid)

/-- The invariant carried through AMReachable: pending keys agree with
the stored request id; pending and history never share an id; a pending
request that is no longer PENDING cannot have an unset event (its event
was set by the deciding call, or already dropped); an entry with a set
event, if still pending, has been decided; history only holds decided
requests. -/
def AMInv (st : ApprovalManagerState) : Prop :=
  (∀ rid req, dictGet st.pending_requests rid = some req →
    req.request_id = rid) ∧
  (∀ rid, (dictGet st.pending_requests rid).isSome →
    ∀ r ∈ st.history, r.request_id ≠ rid) ∧
  (∀ rid req, dictGet st.pending_requests rid = some req →
    req.status ≠ ApprovalStatus.pending →
    dictGet st.events rid ≠ some false) ∧
  (∀ rid req, dictGet st.events rid = some true →
    dictGet st.pending_requests rid = some req →
    req.status ≠ ApprovalStatus.pending) ∧
  (∀ r ∈ st.history, r.status ≠ ApprovalStatus.pending)

/-! Concrete scenario states and helper definitions used by the
theorems below. -/

/-- Folding a sequence of emitted events into the task manager: an
arbitrary interleaving of appends across tasks. -/
def emitMany (st : TaskManagerState)
    (ops : List (Nat × ProgressEventType × String)) : TaskManagerState :=
  ops.foldl (fun s op => TaskManager.emit_event s op.1 op.2.1 op.2.2) st

/-- The per-task event ids read back by get_events are exactly
0, 1, 2, ... -/
def EventIdsOk (st : TaskManagerState) : Prop :=
  ∀ task_id : Nat,
    (TaskManager.get_events st task_id).map ProgressEvent.event_id
      = List.range (TaskManager.get_events st task_id).length

/-- A manager holding one registered HIGH-risk request (id 0, for task
0, 10 second timeout) whose caller is suspended: the state after the
synchronous prefix of request_approval. -/
def amRegistered : ApprovalManagerState :=
  (requestApprovalStart (ApprovalManager.initial 300) OperationType.git_push
    "Push to remote" [] (some 0) none (some 10) 0 0).1

/-- The request record registered in amRegistered. -/
def registeredPush : ApprovalRequest :=
  { request_id := 0
    created_at := 0
    operation_type := OperationType.git_push
    risk_level := RiskLevel.high
    description := "Push to remote"
    details := []
    task_id := some 0
    agent_name := none
    timeout_seconds := 10
    status := ApprovalStatus.pending
    decided_at := none
    decision_note := none }

/-- A task manager right after start_task(0): TASK_START stored and
still sitting in the SSE queue, task status PENDING, background handle
registered. -/
def tmStarted : TaskManagerState :=
  TaskManager.start_task TaskManager.initial 0 100

/-- A task state whose iteration budget is exhausted. -/
def exhaustedTaskState : TaskState :=
  { objective := "add a feature"
    status := TaskStatus.running
    iteration := 10
    max_iterations := 10
    agents_called := [AgentType.research]
    next_agent := none
    pr_results := none
    errors := []
    max_retries := 3 }

/-- The request record produced by the timeout branch: the aliased
pending request with status TIMEOUT and the decision timestamp. -/
def timedOutCopy (req : ApprovalRequest) (now : Nat) : ApprovalRequest :=
  { req with status := ApprovalStatus.timeout, decided_at := some now }

/-- The in-place mutation performed by approve and reject on the aliased
pending request. -/
def decidedCopy (req : ApprovalRequest) (s : ApprovalStatus)
    (note : Option String) (now : Nat) : ApprovalRequest :=
  { req with status := s, decided_at := some now, decision_note := note }

/-! Boolean-equality evaluation lemmas for the derived BEq instances. -/

theorem approvalStatus_beq_eval (a b : ApprovalStatus) :
    (a == b) = decide (a = b) := by
  cases a <;> cases b <;> rfl

theorem riskLevel_beq_eval (a b : RiskLevel) :
    (a == b) = decide (a = b) := by
  cases a <;> cases b <;> rfl

/-! Dictionary lemmas. -/

theorem dictGet_dictSet_self {α : Type} (l : List (Nat × α)) (k : Nat) (v : α) :
    dictGet (dictSet l k v) k = some v := by
  induction l with
  | nil => simp [dictSet, dictGet]
  | cons p t ih =>
      by_cases h : p.1 = k
      · simp [dictSet, dictGet, h]
      · simp [dictSet, dictGet, h, ih]

theorem dictGet_dictSet_ne {α : Type} (l : List (Nat × α)) (k k' : Nat) (v : α)
    (h : k' ≠ k) : dictGet (dictSet l k v) k' = dictGet l k' := by
  have hk : ¬(k = k') := fun hc => h hc.symm
  induction l with
  | nil => simp [dictSet, dictGet, hk]
  | cons p t ih =>
      by_cases hp : p.1 = k
      · simp [dictSet, dictGet, hp, hk]
      · by_cases hp' : p.1 = k'
        · simp [dictSet, dictGet, hp, hp', h]
        · simp [dictSet, dictGet, hp, hp', ih]

theorem dictGet_dictPop_self {α : Type} (l : List (Nat × α)) (k : Nat) :
    dictGet (dictPop l k) k = none := by
  induction l with
  | nil => simp [dictPop, dictGet]
  | cons p t ih =>
      by_cases h : p.1 = k
      · simpa [dictPop, List.filter, h] using ih
      · simpa [dictPop, List.filter, h, dictGet] using ih

theorem dictGet_dictPop_ne {α : Type} (l : List (Nat × α)) (k k' : Nat)
    (h : k' ≠ k) : dictGet (dictPop l k) k' = dictGet l k' := by
  have hk : ¬(k = k') := fun hc => h hc.symm
  induction l with
  | nil => simp [dictPop, dictGet]
  | cons p t ih =>
      by_cases hp : p.1 = k
      · simpa [dictPop, List.filter_cons, dictGet, hp, hk] using ih
      · by_cases hp' : p.1 = k'
        · simp [dictPop, List.filter_cons, dictGet, hp, hp', h]
        · simpa [dictPop, List.filter_cons, dictGet, hp, hp'] using ih

/-! Event id lemmas for the task manager. -/

theorem get_events_emit_self (st : TaskManagerState) (tid : Nat)
    (ty : ProgressEventType) (d : String) :
    TaskManager.get_events (TaskManager.emit_event st tid ty d) tid
      = TaskManager.get_events st tid
        ++ [{ event := ty, data := d,
              event_id := (TaskManager.get_events st tid).length }] := by
  simp only [TaskManager.emit_event, TaskManager.get_events]
  cases hq : dictGet st.event_queues tid <;>
    simp [dictGetD, dictGet_dictSet_self, hq]

theorem get_events_emit_ne (st : TaskManagerState) (tid tid' : Nat)
    (ty : ProgressEventType) (d : String) (h : tid' ≠ tid) :
    TaskManager.get_events (TaskManager.emit_event st tid ty d) tid'
      = TaskManager.get_events st tid' := by
  simp only [TaskManager.emit_event, TaskManager.get_events]
  cases hq : dictGet st.event_queues tid <;>
    simp [dictGetD, dictGet_dictSet_ne _ _ _ _ h, hq]

theorem eventIdsOk_emit {st : TaskManagerState} (hst : EventIdsOk st)
    (tid : Nat) (ty : ProgressEventType) (d : String) :
    EventIdsOk (TaskManager.emit_event st tid ty d) := by
  intro t
  by_cases h : t = tid
  · subst h
    rw [get_events_emit_self]
    simp only [List.map_append, List.length_append, List.map_cons,
      List.map_nil, List.length_cons, List.length_nil]
    rw [hst t, ← List.range_succ]
  · rw [get_events_emit_ne st tid t ty d h]
    exact hst t

theorem eventIdsOk_emitMany {st : TaskManagerState} (hst : EventIdsOk st)
    (ops : List (Nat × ProgressEventType × String)) :
    EventIdsOk (emitMany st ops) := by
  induction ops generalizing st with
  | nil => exact hst
  | cons op rest ih => exact ih (eventIdsOk_emit hst op.1 op.2.1 op.2.2)

/-- Claim C3: for every task, the event_id values of the events returned
by get_events are exactly 0, 1, 2, ... in append order, with no gaps and
no repeats, for any sequence of appended events. -/
theorem event_ids_gapless (ops : List (Nat × ProgressEventType × String))
    (task_id : Nat) :
    (TaskManager.get_events (emitMany TaskManager.initial ops)
        task_id).map ProgressEvent.event_id
      = List.range (TaskManager.get_events (emitMany TaskManager.initial ops)
          task_id).length :=
  eventIdsOk_emitMany
    (fun t => by
      simp [TaskManager.get_events, TaskManager.initial, dictGetD, dictGet])
    ops task_id

/-! Sorting and statistics lemmas. -/

theorem length_insertByKeyDesc {α : Type} (key : α → Nat) (a : α)
    (l : List α) : (insertByKeyDesc key a l).length = l.length + 1 := by
  induction l with
  | nil => rfl
  | cons b t ih =>
      by_cases hb : key b ≤ key a <;> simp [insertByKeyDesc, hb, ih]

theorem length_sortByKeyDesc {α : Type} (key : α → Nat) (l : List α) :
    (sortByKeyDesc key l).length = l.length := by
  induction l with
  | nil => rfl
  | cons a t ih => simp [sortByKeyDesc, length_insertByKeyDesc, ih]

theorem filter_decided_length (h : List ApprovalRequest) :
    (h.filter (fun r =>
        [ApprovalStatus.approved, ApprovalStatus.rejected].contains r.status)).length
      = countStatus h .approved + countStatus h .rejected := by
  induction h with
  | nil => rfl
  | cons r t ih =>
      rcases hr : r.status <;>
        simp [countStatus, List.filter_cons, hr, approvalStatus_beq_eval]
          at ih ⊢ <;>
        omega

/-- Claim C10: a limit of 0 is falsy in Python, so get_history and
list_tasks with limit 0 return the full result, the same as limit None;
with neither filter nor limit, get_history returns the whole history. -/
theorem limit_zero_returns_all (st : ApprovalManagerState)
    (tm : TaskManagerState) (sa : Option ApprovalStatus)
    (stt : Option TaskStatus) :
    ApprovalManager.get_history st (some 0) sa
      = ApprovalManager.get_history st none sa ∧
    TaskManager.list_tasks tm stt (some 0)
      = TaskManager.list_tasks tm stt none ∧
    (ApprovalManager.get_history st none none).length = st.history.length := by
  refine ⟨?_, ?_, ?_⟩
  · simp [ApprovalManager.get_history, applyLimit]
  · simp [TaskManager.list_tasks, applyLimit]
  · simp [ApprovalManager.get_history, applyLimit, length_sortByKeyDesc]

/-- Claim C9: get_stats computes approval_rate as approved divided by
approved plus rejected, counted over history only; TIMEOUT entries do
not change the rate; and the rate is 0 when no history entry is
approved or rejected (no division occurs). -/
theorem approval_rate_spec (h : List ApprovalRequest) :
    approval_rate h
      = (countStatus h .approved : ℚ)
        / ((countStatus h .approved + countStatus h .rejected : Nat) : ℚ) ∧
    (countStatus h .approved = 0 → countStatus h .rejected = 0 →
      approval_rate h = 0) ∧
    (∀ r : ApprovalRequest, r.status = ApprovalStatus.timeout →
      approval_rate (r :: h) = approval_rate h) := by
  have hlen := filter_decided_length h
  refine ⟨?_, ?_, ?_⟩
  · simp only [approval_rate]
    rw [hlen]
    by_cases hpos : 0 < countStatus h .approved + countStatus h .rejected
    · simp [hpos]
    · have h0 : countStatus h .approved + countStatus h .rejected = 0 := by omega
      have ha : countStatus h .approved = 0 := by omega
      simp [hpos, h0, ha]
  · intro ha hr
    simp only [approval_rate]
    rw [hlen, ha, hr]
    simp
  · intro r hr
    simp only [approval_rate, countStatus]
    simp [List.filter_cons, hr, approvalStatus_beq_eval]

/-- Claim C9 witness: the rate is 0 on an empty history and unchanged by
a TIMEOUT entry. -/
theorem approval_rate_spec_witness :
    approval_rate [] = 0 ∧
    approval_rate [timedOutCopy registeredPush 9] = approval_rate [] :=
  ⟨(approval_rate_spec []).2.1 rfl rfl,
   (approval_rate_spec []).2.2 (timedOutCopy registeredPush 9) rfl⟩

/-- Claim C5: requires_approval is false exactly for LOW risk, and a
request whose operation classifies as LOW is answered synchronously
with an auto-approved response, leaving the manager state (in
particular the pending set) untouched. -/
theorem low_risk_auto_approved :
    (∀ rl : RiskLevel,
      RiskClassifier.requires_approval rl = false ↔ rl = RiskLevel.low) ∧
    ∀ (st : ApprovalManagerState) (op : OperationType) (descr : String)
      (details : List (String × String)) (task_id : Option Nat)
      (agent_name : Option String) (timeout : Option Nat) (rid now : Nat),
      RiskClassifier.classify op = RiskLevel.low →
      requestApprovalStart st op descr details task_id agent_name timeout
          rid now
        = (st, some { request_id := rid, approved := true,
                      note := some "Auto-approved (low risk)",
                      decided_at := now }) := by
  constructor
  · intro rl
    cases rl <;> decide
  · intro st op descr details task_id agent_name timeout rid now hlow
    simp [requestApprovalStart, registeredRequest,
      RiskClassifier.create_request, hlow,
      RiskClassifier.requires_approval, riskLevel_beq_eval]

/-- Claim C5 witness: an AGENT_CALL request is LOW risk and is
auto-approved without touching the initial manager state. -/
theorem low_risk_auto_approved_witness :
    requestApprovalStart (ApprovalManager.initial 300)
        OperationType.agent_call "Call research agent" [] none none none 7 3
      = (ApprovalManager.initial 300,
         some { request_id := 7, approved := true,
                note := some "Auto-approved (low risk)", decided_at := 3 }) :=
  low_risk_auto_approved.2 (ApprovalManager.initial 300)
    OperationType.agent_call "Call research agent" [] none none none 7 3
    (by decide)

/-- Claim C6: when iteration has reached max_iterations or the error
list has reached max_retries, decide_next_route returns next_agent none
at once and the external LLM decision call is never made. -/
theorem safety_checks_before_decision (default_strategy : RoutingStrategy)
    (state : TaskState) (llm : Except Unit (Option AgentType))
    (h : state.max_iterations ≤ state.iteration
         ∨ state.max_retries ≤ state.errors.length) :
    (decide_next_route default_strategy state llm).1.next_agent = none ∧
    (decide_next_route default_strategy state llm).2 = false := by
  by_cases h1 : state.max_iterations ≤ state.iteration
  · simp [decide_next_route, h1]
  · rcases h with h | h
    · exact absurd h h1
    · simp [decide_next_route, h1, h]

/-- Claim C6 witness: a task at its iteration budget routes to none
without an LLM call, whatever the oracle would have answered. -/
theorem safety_checks_before_decision_witness :
    (decide_next_route RoutingStrategy.adaptive exhaustedTaskState
        (Except.ok (some AgentType.research))).1.next_agent = none ∧
    (decide_next_route RoutingStrategy.adaptive exhaustedTaskState
        (Except.ok (some AgentType.research))).2 = false :=
  safety_checks_before_decision RoutingStrategy.adaptive exhaustedTaskState
    (Except.ok (some AgentType.research)) (Or.inl (by decide))

/-- Claim C7: when the wait times out on a pending request, the request
is marked TIMEOUT with a decision timestamp, removed from the pending
set, appended to history, the decided observer is notified with it, and
the call fails with the ApprovalTimeout condition instead of returning
a decision. -/
theorem timeout_resolution (st : ApprovalManagerState) (rid now : Nat)
    (req : ApprovalRequest)
    (h : dictGet st.pending_requests rid = some req) :
    (requestApprovalTimeout st rid now).2
      = ApprovalWaitOutcome.approvalTimedOut ∧
    dictGet (requestApprovalTimeout st rid now).1.pending_requests rid
      = none ∧
    (requestApprovalTimeout st rid now).1.history
      = st.history ++ [timedOutCopy req now] ∧
    (requestApprovalTimeout st rid now).1.decided_notified
      = st.decided_notified ++ [timedOutCopy req now] := by
  simp [requestApprovalTimeout, timedOutCopy, h, dictGet_dictPop_self]

/-- Claim C7 witness: the registered HIGH-risk request, timed out at
time 9, is removed from pending and lands in history as TIMEOUT. -/
theorem timeout_resolution_witness :
    dictGet amRegistered.pending_requests 0 = some registeredPush ∧
    (requestApprovalTimeout amRegistered 0 9).2
      = ApprovalWaitOutcome.approvalTimedOut ∧
    dictGet (requestApprovalTimeout amRegistered 0 9).1.pending_requests 0
      = none ∧
    (requestApprovalTimeout amRegistered 0 9).1.history
      = [timedOutCopy registeredPush 9] := by
  have h : dictGet amRegistered.pending_requests 0 = some registeredPush := by
    decide
  have ht := timeout_resolution amRegistered 0 9 registeredPush h
  refine ⟨h, ht.1, ht.2.1, ?_⟩
  rw [ht.2.2.1]
  rfl

/-- Claim C1 counterexample: on the registered pending request, a
concurrent approve and reject BOTH return true (approve marks the
request APPROVED but leaves it in the pending set, so the following
reject still finds it there and succeeds), refuting both that exactly
one decision call returns true and that a decision attempt on an
already-decided id returns false. -/
theorem approve_reject_both_succeed :
    (ApprovalManager.approve amRegistered 0 (some "ok") 5).2 = true ∧
    ((ApprovalManager.approve amRegistered 0 (some "ok") 5).1.pending_requests.map
        (fun p => p.2.status)) = [ApprovalStatus.approved] ∧
    (ApprovalManager.reject
        (ApprovalManager.approve amRegistered 0 (some "ok") 5).1
        0 (some "no") 6).2 = true := by decide

/-- Claim C1 (amended): a decision call returns true exactly when the id
is still in the pending set — so two concurrent approve and reject calls
on a pending id can both return true, the later overwriting the status —
and returns false once the suspended waiter has moved the request to
history; in the approve-then-reject run the history afterwards holds
exactly one entry for the id, carrying the last status written. -/
theorem decision_calls_amended (st : ApprovalManagerState) (rid : Nat)
    (note note2 : Option String) (now now2 now3 : Nat) :
    ((ApprovalManager.approve st rid note now).2
      = (dictGet st.pending_requests rid).isSome) ∧
    ((ApprovalManager.reject st rid note now).2
      = (dictGet st.pending_requests rid).isSome) ∧
    (dictGet (requestApprovalResume st rid now2).1.pending_requests rid
      = none) ∧
    ((ApprovalManager.approve (requestApprovalResume st rid now2).1
        rid note2 now3).2 = false) ∧
    ((ApprovalManager.reject (requestApprovalResume st rid now2).1
        rid note2 now3).2 = false) ∧
    ((requestApprovalResume (ApprovalManager.reject
        (ApprovalManager.approve amRegistered 0 (some "ok") 5).1
        0 (some "no") 6).1 0 7).1.history.map ApprovalRequest.status
      = [ApprovalStatus.rejected]) := by
  have hres : dictGet
      (requestApprovalResume st rid now2).1.pending_requests rid = none := by
    cases hp : dictGet st.pending_requests rid with
    | none => simp [requestApprovalResume, hp]
    | some req => simp [requestApprovalResume, hp, dictGet_dictPop_self]
  refine ⟨?_, ?_, hres, ?_, ?_, by decide⟩
  · cases hp : dictGet st.pending_requests rid <;>
      simp [ApprovalManager.approve, hp]
  · cases hp : dictGet st.pending_requests rid <;>
      simp [ApprovalManager.reject, hp]
  · simp [ApprovalManager.approve, hres]
  · simp [ApprovalManager.reject, hres]

/-- Claim C2 code bug: a subscriber that connects right after start_task
with no Last-Event-ID receives the TASK_START event twice — once from
the replay of the stored events and once more from the shared per-task
queue, where every emitted event was also placed. -/
theorem stream_first_connect_duplicates :
    ((streamDelivered tmStarted 0 (-1)).map ProgressEvent.event_id
      = [0, 0]) ∧
    ((streamDelivered tmStarted 0 (-1)).countP
        (fun e => e.event_id == 0) = 2) := by decide

/-- Claim C4 code bug: cancelling the task whose approval request is
pending returns true, marks the task FAILED and emits the ERROR event,
but the approval manager is never touched: after the cancelled waiter
runs its cleanup (which only drops the event), the request is still
returned by get_pending_requests — an orphaned pending request. -/
theorem cancel_leaves_orphan_pending :
    (TaskManager.cancel_task tmStarted 0).2 = true ∧
    ((dictGet (TaskManager.cancel_task tmStarted 0).1.task_info 0).map
        TaskInfo.status = some TaskStatus.failed) ∧
    ((TaskManager.get_events (TaskManager.cancel_task tmStarted 0).1 0).map
        ProgressEvent.event
      = [ProgressEventType.task_start, ProgressEventType.error]) ∧
    (ApprovalManager.get_pending_requests
        (ApprovalManager.cancelWaiter amRegistered 0) = [registeredPush]) ∧
    registeredPush.task_id = some 0 ∧
    registeredPush.status = ApprovalStatus.pending := by decide

/-- Claim C8 counterexample: the state reached by registering a request
and approving it (before the waiter resumes) is a reachable manager
state in which the pending set holds a request whose status is not
PENDING — a decided request is observable in the pending set. -/
theorem decided_request_observable_in_pending :
    AMReachable (ApprovalManager.approve amRegistered 0 (some "ok") 5).1 ∧
    ∃ r ∈ ApprovalManager.get_pending_requests
        (ApprovalManager.approve amRegistered 0 (some "ok") 5).1,
      r.status ≠ ApprovalStatus.pending := by
  constructor
  · exact AMReachable.approveCall
      (AMReachable.start (AMReachable.init 300) OperationType.git_push
        "Push to remote" [] (some 0) none (some 10) 0 0
        (by decide) (by decide))
      0 (some "ok") 5
  · decide

/-! Invariant preservation for the approval manager. -/

theorem amInv_decide_in_place {st : ApprovalManagerState}
    (inv : AMInv st) (rid : Nat) (req req' : ApprovalRequest)
    (hp : dictGet st.pending_requests rid = some req)
    (hid : req'.request_id = req.request_id)
    (hstat : req'.status ≠ ApprovalStatus.pending) :
    AMInv { st with
      pending_requests := dictSet st.pending_requests rid req'
      events := if (dictGet st.events rid).isSome
        then dictSet st.events rid true else st.events
      decided_notified := st.decided_notified ++ [req'] } := by
  obtain ⟨ih0, ih1, ih2, ih3, ih4⟩ := inv
  refine ⟨?_, ?_, ?_, ?_, ?_⟩
  · intro rid2 req2 hp2
    by_cases hr : rid2 = rid
    · subst hr
      rw [dictGet_dictSet_self] at hp2
      cases hp2
      rw [hid]
      exact ih0 rid2 req hp
    · rw [dictGet_dictSet_ne _ _ _ _ hr] at hp2
      exact ih0 rid2 req2 hp2
  · intro rid2 hsome r hrmem
    by_cases hr : rid2 = rid
    · subst hr
      exact ih1 rid2 (by rw [hp]; rfl) r hrmem
    · rw [dictGet_dictSet_ne _ _ _ _ hr] at hsome
      exact ih1 rid2 hsome r hrmem
  · intro rid2 req2 hp2 hs2
    by_cases hr : rid2 = rid
    · subst hr
      by_cases hev : (dictGet st.events rid2).isSome
      · rw [if_pos hev, dictGet_dictSet_self]
        simp
      · rw [if_neg hev]
        rw [Option.not_isSome_iff_eq_none] at hev
        simp [hev]
    · rw [dictGet_dictSet_ne _ _ _ _ hr] at hp2
      by_cases hev : (dictGet st.events rid).isSome
      · rw [if_pos hev, dictGet_dictSet_ne _ _ _ _ hr]
        exact ih2 rid2 req2 hp2 hs2
      · rw [if_neg hev]
        exact ih2 rid2 req2 hp2 hs2
  · intro rid2 req2 hev2 hp2
    by_cases hr : rid2 = rid
    · subst hr
      rw [dictGet_dictSet_self] at hp2
      cases hp2
      exact hstat
    · rw [dictGet_dictSet_ne _ _ _ _ hr] at hp2
      by_cases hev : (dictGet st.events rid).isSome
      · rw [if_pos hev, dictGet_dictSet_ne _ _ _ _ hr] at hev2
        exact ih3 rid2 req2 hev2 hp2
      · rw [if_neg hev] at hev2
        exact ih3 rid2 req2 hev2 hp2
  · exact ih4

theorem amInv_move_to_history {st : ApprovalManagerState}
    (inv : AMInv st) (rid : Nat) (req req' : ApprovalRequest)
    (hp : dictGet st.pending_requests rid = some req)
    (hid : req'.request_id = req.request_id)
    (hstat : req'.status ≠ ApprovalStatus.pending)
    (dn : List ApprovalRequest) :
    AMInv { st with
      pending_requests := dictPop st.pending_requests rid
      history := st.history ++ [req']
      decided_notified := dn
      events := dictPop st.events rid } := by
  obtain ⟨ih0, ih1, ih2, ih3, ih4⟩ := inv
  refine ⟨?_, ?_, ?_, ?_, ?_⟩
  · intro rid2 req2 hp2
    by_cases hr : rid2 = rid
    · subst hr
      rw [dictGet_dictPop_self] at hp2
      cases hp2
    · rw [dictGet_dictPop_ne _ _ _ hr] at hp2
      exact ih0 rid2 req2 hp2
  · intro rid2 hsome r hrmem
    by_cases hr : rid2 = rid
    · subst hr
      rw [dictGet_dictPop_self] at hsome
      cases hsome
    · rw [dictGet_dictPop_ne _ _ _ hr] at hsome
      rcases List.mem_append.mp hrmem with hr1 | hr1
      · exact ih1 rid2 hsome r hr1
      · rw [List.mem_singleton.mp hr1, hid, ih0 rid req hp]
        exact fun hc => hr hc.symm
  · intro rid2 req2 hp2 hs2
    by_cases hr : rid2 = rid
    · subst hr
      rw [dictGet_dictPop_self] at hp2
      cases hp2
    · rw [dictGet_dictPop_ne _ _ _ hr] at hp2
      rw [dictGet_dictPop_ne _ _ _ hr]
      exact ih2 rid2 req2 hp2 hs2
  · intro rid2 req2 hev2 hp2
    by_cases hr : rid2 = rid
    · subst hr
      rw [dictGet_dictPop_self] at hev2
      cases hev2
    · rw [dictGet_dictPop_ne _ _ _ hr] at hev2
      rw [dictGet_dictPop_ne _ _ _ hr] at hp2
      exact ih3 rid2 req2 hev2 hp2
  · intro r hrmem
    rcases List.mem_append.mp hrmem with hr1 | hr1
    · exact ih4 r hr1
    · rw [List.mem_singleton.mp hr1]
      exact hstat

theorem amReachable_inv {st : ApprovalManagerState} (h : AMReachable st) :
    AMInv st := by
  induction h with
  | init d =>
      refine ⟨?_, ?_, ?_, ?_, ?_⟩ <;>
        simp [ApprovalManager.initial, dictGet]
  | start h op descr details task_id agent_name timeout rid now hfp hfh ih =>
      rename_i st0
      obtain ⟨ih0, ih1, ih2, ih3, ih4⟩ := ih
      cases hreq : RiskClassifier.requires_approval
          (registeredRequest st0 op descr details task_id agent_name
            timeout rid now).risk_level with
      | false =>
          have hst : (requestApprovalStart st0 op descr details task_id
              agent_name timeout rid now).1 = st0 := by
            simp [requestApprovalStart, hreq]
          rw [hst]
          exact ⟨ih0, ih1, ih2, ih3, ih4⟩
      | true =>
          have hst : (requestApprovalStart st0 op descr details task_id
              agent_name timeout rid now).1
              = { st0 with
                  pending_requests := dictSet st0.pending_requests rid
                    (registeredRequest st0 op descr details task_id
                      agent_name timeout rid now)
                  events := dictSet st0.events rid false
                  created_notified := st0.created_notified
                    ++ [registeredRequest st0 op descr details task_id
                        agent_name timeout rid now] } := by
            simp [requestApprovalStart, hreq]
          rw [hst]
          refine ⟨?_, ?_, ?_, ?_, ?_⟩
          · intro rid2 req2 hp2
            by_cases hr : rid2 = rid
            · subst hr
              rw [dictGet_dictSet_self] at hp2
              cases hp2
              rfl
            · rw [dictGet_dictSet_ne _ _ _ _ hr] at hp2
              exact ih0 rid2 req2 hp2
          · intro rid2 hsome r hrmem
            by_cases hr : rid2 = rid
            · subst hr
              exact hfh r hrmem
            · rw [dictGet_dictSet_ne _ _ _ _ hr] at hsome
              exact ih1 rid2 hsome r hrmem
          · intro rid2 req2 hp2 hs2
            by_cases hr : rid2 = rid
            · subst hr
              rw [dictGet_dictSet_self] at hp2
              cases hp2
              exact absurd rfl hs2
            · rw [dictGet_dictSet_ne _ _ _ _ hr] at hp2
              rw [dictGet_dictSet_ne _ _ _ _ hr]
              exact ih2 rid2 req2 hp2 hs2
          · intro rid2 req2 hev2 hp2
            by_cases hr : rid2 = rid
            · subst hr
              rw [dictGet_dictSet_self] at hev2
              cases hev2
            · rw [dictGet_dictSet_ne _ _ _ _ hr] at hev2
              rw [dictGet_dictSet_ne _ _ _ _ hr] at hp2
              exact ih3 rid2 req2 hev2 hp2
          · exact ih4
  | approveCall h rid note now ih =>
      rename_i st0
      cases hp : dictGet st0.pending_requests rid with
      | none =>
          have hst : (ApprovalManager.approve st0 rid note now).1 = st0 := by
            simp [ApprovalManager.approve, hp]
          rw [hst]
          exact ih
      | some req =>
          have hst : (ApprovalManager.approve st0 rid note now).1
              = { st0 with
                  pending_requests := dictSet st0.pending_requests rid
                    (decidedCopy req ApprovalStatus.approved note now)
                  events := if (dictGet st0.events rid).isSome
                    then dictSet st0.events rid true else st0.events
                  decided_notified := st0.decided_notified
                    ++ [decidedCopy req ApprovalStatus.approved note now] } := by
            simp [ApprovalManager.approve, decidedCopy, hp]
          rw [hst]
          exact amInv_decide_in_place ih rid req _ hp rfl (by simp [decidedCopy])
  | rejectCall h rid note now ih =>
      rename_i st0
      cases hp : dictGet st0.pending_requests rid with
      | none =>
          have hst : (ApprovalManager.reject st0 rid note now).1 = st0 := by
            simp [ApprovalManager.reject, hp]
          rw [hst]
          exact ih
      | some req =>
          have hst : (ApprovalManager.reject st0 rid note now).1
              = { st0 with
                  pending_requests := dictSet st0.pending_requests rid
                    (decidedCopy req ApprovalStatus.rejected note now)
                  events := if (dictGet st0.events rid).isSome
                    then dictSet st0.events rid true else st0.events
                  decided_notified := st0.decided_notified
                    ++ [decidedCopy req ApprovalStatus.rejected note now] } := by
            simp [ApprovalManager.reject, decidedCopy, hp]
          rw [hst]
          exact amInv_decide_in_place ih rid req _ hp rfl (by simp [decidedCopy])
  | resume h rid now hset ih =>
      rename_i st0
      cases hp : dictGet st0.pending_requests rid with
      | none =>
          have hst : (requestApprovalResume st0 rid now).1 = st0 := by
            simp [requestApprovalResume, hp]
          rw [hst]
          exact ih
      | some req =>
          have hst : (requestApprovalResume st0 rid now).1
              = { st0 with
                  pending_requests := dictPop st0.pending_requests rid
                  history := st0.history ++ [req]
                  decided_notified := st0.decided_notified
                  events := dictPop st0.events rid } := by
            simp [requestApprovalResume, hp]
          rw [hst]
          exact amInv_move_to_history ih rid req req hp rfl
            (ih.2.2.2.1 rid req hset hp) _
  | timeoutFire h rid now hunset ih =>
      rename_i st0
      cases hp : dictGet st0.pending_requests rid with
      | none =>
          have hst : (requestApprovalTimeout st0 rid now).1 = st0 := by
            simp [requestApprovalTimeout, hp]
          rw [hst]
          exact ih
      | some req =>
          have hst : (requestApprovalTimeout st0 rid now).1
              = { st0 with
                  pending_requests := dictPop st0.pending_requests rid
                  history := st0.history ++ [timedOutCopy req now]
                  decided_notified := st0.decided_notified
                    ++ [timedOutCopy req now]
                  events := dictPop st0.events rid } := by
            simp [requestApprovalTimeout, timedOutCopy, hp]
          rw [hst]
          exact amInv_move_to_history ih rid req (timedOutCopy req now) hp
            (by simp [timedOutCopy]) (by simp [timedOutCopy]) _
  | cancelWaiterStep h rid ih =>
      rename_i st0
      obtain ⟨ih0, ih1, ih2, ih3, ih4⟩ := ih
      refine ⟨ih0, ih1, ?_, ?_, ih4⟩
      · intro rid2 req2 hp2 hs2
        by_cases hr : rid2 = rid
        · subst hr
          show dictGet (dictPop st0.events rid2) rid2 ≠ some false
          rw [dictGet_dictPop_self]
          simp
        · show dictGet (dictPop st0.events rid) rid2 ≠ some false
          rw [dictGet_dictPop_ne _ _ _ hr]
          exact ih2 rid2 req2 hp2 hs2
      · intro rid2 req2 hev2 hp2
        by_cases hr : rid2 = rid
        · subst hr
          rw [show (ApprovalManager.cancelWaiter st0 rid2).events
              = dictPop st0.events rid2 from rfl,
            dictGet_dictPop_self] at hev2
          cases hev2
        · rw [show (ApprovalManager.cancelWaiter st0 rid).events
              = dictPop st0.events rid from rfl,
            dictGet_dictPop_ne _ _ _ hr] at hev2
          exact ih3 rid2 req2 hev2 hp2

/-- Claim C8 (amended): in every reachable approval-manager state a
request id never occurs in the pending set and in history at once, and
every history entry is decided (never PENDING); however, a request that
has just been decided stays visible in the pending set, with its decided
status, until its suspended waiter resumes and moves it to history. -/
theorem pending_history_exclusive (st : ApprovalManagerState)
    (h : AMReachable st) :
    (∀ rid, (dictGet st.pending_requests rid).isSome →
      ∀ r ∈ st.history, r.request_id ≠ rid) ∧
    (∀ r ∈ st.history, r.status ≠ ApprovalStatus.pending) :=
  ⟨(amReachable_inv h).2.1, (amReachable_inv h).2.2.2.2⟩

/-- Claim C8 witness: the exclusivity holds at the reachable state in
which request 0 is registered and then approved. -/
theorem pending_history_exclusive_witness :
    (∀ rid, (dictGet (ApprovalManager.approve amRegistered 0
          (some "ok") 5).1.pending_requests rid).isSome →
      ∀ r ∈ (ApprovalManager.approve amRegistered 0
          (some "ok") 5).1.history, r.request_id ≠ rid) ∧
    (∀ r ∈ (ApprovalManager.approve amRegistered 0 (some "ok") 5).1.history,
      r.status ≠ ApprovalStatus.pending) :=
  pending_history_exclusive _
    (AMReachable.approveCall
      (AMReachable.start (AMReachable.init 300) OperationType.git_push
        "Push to remote" [] (some 0) none (some 10) 0 0
        (by decide) (by decide))
      0 (some "ok") 5)

end Orchestrator
